import Mathlib

/-!
Verification of the block storage device (`src/block_store.c`).

The device is `struct block_store { bitmap_t *bmp[256]; }`: an array of 256
bitmap objects, each of 2048 bits (= 256 bytes).  `bmp[0]` plays a double
role: its bits are the occupancy bitmap of the device, and its exported
bytes are block 0's content.

The bitmap primitive (`bitmap.h`) is an external collaborator whose source
is not part of the repository; following the spec it is modelled as an
opaque fixed-size bit-vector supporting set / reset / test / find-first-zero
/ export-to-bytes / import-from-bytes.  A bitmap is modelled by its sequence
of bits, and a 256-byte buffer by its 2048 bits, so export and import are
the identity on full-length buffers and byte-for-byte equality of buffers is
bit-for-bit equality of the corresponding bit lists.

`NULL` pointers (device, buffer, filename) are modelled with `Option`.
File contents for serialize/deserialize are modelled as the list of 256-byte
chunks the C code writes and reads back in order.
-/

/-- The value of `SIZE_MAX` on the 64-bit platform the code targets. -/
def SIZE_MAX : Nat := 2 ^ 64 - 1

/-- Modelled from the spec: a bitmap is an opaque fixed-size bit-vector;
we represent it by its list of bits. -/
abbrev bitmap_t : Type := List Bool

/-- A raw byte buffer, represented by its bits (one 256-byte block = 2048 bits). -/
abbrev Buffer : Type := List Bool

/-- Modelled from the spec: `bitmap_create(n)` yields an `n`-bit bitmap with
all bits clear. -/
def bitmap_create (n : Nat) : bitmap_t := List.replicate n false

/-- Modelled from the spec: `bitmap_set(b, i)` sets bit `i`. -/
def bitmap_set (b : bitmap_t) (i : Nat) : bitmap_t := List.set b i true

/-- Modelled from the spec: `bitmap_reset(b, i)` clears bit `i`. -/
def bitmap_reset (b : bitmap_t) (i : Nat) : bitmap_t := List.set b i false

/-- Modelled from the spec: `bitmap_test(b, i)` reads bit `i`. -/
def bitmap_test (b : bitmap_t) (i : Nat) : Bool := List.getD b i false

/-- Helper for `bitmap_ffz`: index of the first `false`, counting from `k`. -/
def ffzAux : List Bool → Nat → Nat
  | [], _ => SIZE_MAX
  | b :: rest, k => if b then ffzAux rest (k + 1) else k

/-- Modelled from the spec: `bitmap_ffz(b)` finds the first zero bit,
`SIZE_MAX` when every bit is set. -/
def bitmap_ffz (b : bitmap_t) : Nat := ffzAux b 0

/-- Modelled from the spec: `bitmap_export(b)` exposes the bitmap's backing
bytes; on our bit-list representation it is the identity. -/
def bitmap_export (b : bitmap_t) : Buffer := b

/-- Modelled from the spec: `bitmap_import(n, buf)` builds an `n`-bit bitmap
from the first `n` bits (`n/8` bytes) of `buf`. -/
def bitmap_import (n : Nat) (buf : Buffer) : bitmap_t := List.take n buf

/-- The C struct `block_store { bitmap_t *bmp[256]; }` — the 256 bitmap objects,
stored as a list of length 256. -/
structure block_store_t where
  bmp : List bitmap_t
deriving DecidableEq

/-- Well-formedness a real device always has: 256 slots, each bitmap holding
2048 bits (256 bytes). -/
def block_store_wf (bs : block_store_t) : Prop :=
  bs.bmp.length = 256 ∧ ∀ b ∈ bs.bmp, List.length b = 2048

instance (bs : block_store_t) : Decidable (block_store_wf bs) :=
  inferInstanceAs (Decidable (_ ∧ _))

/-- The C function `block_store_create`: 256 bitmaps of 2048 bits each, then
`bitmap_set(bmp[0], 0)` (block 0 is the Free Block Map, always in use).
The successful (non-`NULL` `malloc`) path is modelled. -/
def block_store_create : block_store_t :=
  let bmps := List.replicate 256 (bitmap_create 2048)
  ⟨List.set bmps 0 (bitmap_set (List.getD bmps 0 []) 0)⟩

/-- The C function `block_store_allocate`: `bitmap_ffz` on `bmp[0]`; on `SIZE_MAX` or an
index `≥ 256` return `SIZE_MAX`, otherwise set the bit and return the index.
Returns the C return value together with the device state after the call. -/
def block_store_allocate (obs : Option block_store_t) : Nat × Option block_store_t :=
  match obs with
  | none => (SIZE_MAX, none)
  | some bs =>
    let i := bitmap_ffz (List.getD bs.bmp 0 [])
    if i = SIZE_MAX ∨ 256 ≤ i then (SIZE_MAX, some bs)
    else (i, some ⟨List.set bs.bmp 0 (bitmap_set (List.getD bs.bmp 0 []) i)⟩)

/-- The C function `block_store_request`: succeeds iff the device is non-`NULL`,
`0 < block_id < 256` and the bit is clear; then sets the bit. -/
def block_store_request (obs : Option block_store_t) (block_id : Nat) :
    Bool × Option block_store_t :=
  match obs with
  | none => (false, none)
  | some bs =>
    if 0 < block_id ∧ block_id < 256 ∧ bitmap_test (List.getD bs.bmp 0 []) block_id = false then
      (true, some ⟨List.set bs.bmp 0 (bitmap_set (List.getD bs.bmp 0 []) block_id)⟩)
    else (false, some bs)

/-- The C function `block_store_release`: clears the bit iff the device is non-`NULL`,
`0 < block_id < 256` and the bit is set; otherwise a no-op. -/
def block_store_release (obs : Option block_store_t) (block_id : Nat) :
    Option block_store_t :=
  match obs with
  | none => none
  | some bs =>
    if 0 < block_id ∧ block_id < 256 ∧ bitmap_test (List.getD bs.bmp 0 []) block_id = true then
      some ⟨List.set bs.bmp 0 (bitmap_reset (List.getD bs.bmp 0 []) block_id)⟩
    else some bs

/-- The C function `block_store_get_used_blocks`: `SIZE_MAX` on `NULL`; otherwise counts the
set bits of `bmp[0]` for `i = 1 .. 255`, returning `SIZE_MAX` if the count
reaches 256. -/
def block_store_get_used_blocks (obs : Option block_store_t) : Nat :=
  match obs with
  | none => SIZE_MAX
  | some bs =>
    let ub := List.countP (fun i => bitmap_test (List.getD bs.bmp 0 []) i) (List.range' 1 255)
    if 256 ≤ ub then SIZE_MAX else ub

/-- The C function `block_store_get_free_blocks`: `255 - used`, propagating `SIZE_MAX`. -/
def block_store_get_free_blocks (obs : Option block_store_t) : Nat :=
  let ub := block_store_get_used_blocks obs
  if ub = SIZE_MAX then SIZE_MAX else 255 - ub

/-- The C function `block_store_get_total_blocks`: the constant 255. -/
def block_store_get_total_blocks : Nat := 255

/-- The C function `block_store_read`: 0 on a `NULL` device or buffer; otherwise
`memcpy(buffer, bitmap_export(bmp[block_id]), 256)` and return 256.  The C
code performs no bounds check on `block_id`; the array access `bmp[block_id]`
is modelled by `List.get?`, and the outer `none` marks the out-of-bounds
access that is undefined behaviour in C.  The result pairs the C return
value with the buffer contents after the call. -/
def block_store_read (obs : Option block_store_t) (block_id : Nat)
    (buffer : Option Buffer) : Option (Nat × Option Buffer) :=
  match obs, buffer with
  | none, buf => some (0, buf)
  | some _, none => some (0, none)
  | some bs, some _ =>
    match bs.bmp[block_id]? with
    | none => none
    | some b => some (256, some (bitmap_export b))

/-- The C function `block_store_write`: 0 on a `NULL` device, `NULL` buffer or
`block_id ≥ 256`; otherwise destroys `bmp[block_id]` and re-creates it from
the buffer via `bitmap_import(2048, buffer)`, returning 256.  The successful
(non-`NULL` import) path is modelled. -/
def block_store_write (obs : Option block_store_t) (block_id : Nat)
    (buffer : Option Buffer) : Nat × Option block_store_t :=
  match obs, buffer with
  | none, _ => (0, none)
  | some bs, none => (0, some bs)
  | some bs, some buf =>
    if 256 ≤ block_id then (0, some bs)
    else (256, some ⟨List.set bs.bmp block_id (bitmap_import 2048 buf)⟩)

/-- The C function `block_store_serialize`: 0 on a `NULL` device or filename; otherwise
writes `bitmap_export(bmp[i])` (256 bytes) for `i = 0 .. 255` to the file
and returns the accumulated size.  The file contents are modelled as the
list of 256-byte chunks written; the successful-I/O path is modelled. -/
def block_store_serialize (obs : Option block_store_t) (filename : Option Unit) :
    Nat × Option (List Buffer) :=
  match obs, filename with
  | none, _ => (0, none)
  | some _, none => (0, none)
  | some bs, some _ =>
    (List.foldl (fun sz _ => sz + 256) 0 (List.range 256),
     some (List.map (fun i => bitmap_export (List.getD bs.bmp i [])) (List.range 256)))

/-- One iteration of the `block_store_deserialize` loop: write chunk `i`
into slot `i`, destroying the device on a failed write. -/
def deserialize_step (obs : Option block_store_t) (chunks : List Buffer) (i : Nat) :
    Option block_store_t :=
  match obs with
  | none => none
  | some bs =>
    let r := block_store_write (some bs) i (some (List.getD chunks i []))
    if r.1 = 256 then r.2 else none

/-- The C function `block_store_deserialize`: `NULL` on a `NULL` filename or unopenable
file (`none` image); otherwise create a fresh device and write the file's
256-byte chunks into slots `0 .. 255` via `block_store_write`. -/
def block_store_deserialize (image : Option (List Buffer)) : Option block_store_t :=
  match image with
  | none => none
  | some chunks =>
    List.foldl (fun obs i => deserialize_step obs chunks i) (some block_store_create)
      (List.range 256)

/-- The operations of the in-memory API that take a device, for stating
reachability invariants.  `read` never mutates the device. -/
inductive Op where
  | alloc : Op
  | request : Nat → Op
  | release : Nat → Op
  | write : Nat → Option Buffer → Op
  | read : Nat → Option Buffer → Op

/-- Apply one API operation to a device state. -/
def applyOp (obs : Option block_store_t) : Op → Option block_store_t
  | Op.alloc => (block_store_allocate obs).2
  | Op.request id => (block_store_request obs id).2
  | Op.release id => block_store_release obs id
  | Op.write id buf => (block_store_write obs id buf).2
  | Op.read _ _ => obs

/-- Run a sequence of API operations starting from a fresh device. -/
def runOps (ops : List Op) : Option block_store_t :=
  List.foldl applyOp (some block_store_create) ops

/-- Does the operation write to block 0 (the slot aliasing the bitmap)? -/
def writesToBlock0 : Op → Bool
  | Op.write 0 _ => true
  | _ => false

/-! ### Basic facts about the modelled primitives -/

theorem SIZE_MAX_eq : SIZE_MAX = 18446744073709551615 := by norm_num [SIZE_MAX]

theorem getD_set_ne {α : Type _} (l : List α) {i j : Nat} (x d : α) (h : i ≠ j) :
    List.getD (List.set l i x) j d = List.getD l j d := by
  simp [List.getD_eq_getElem?_getD, List.getElem?_set_ne h]

theorem getD_set_self {α : Type _} (l : List α) {i : Nat} (x d : α) (h : i < l.length) :
    List.getD (List.set l i x) i d = x := by
  simp [List.getD_eq_getElem?_getD, List.getElem?_set_self h]

theorem getD_replicate_zero {α : Type _} {n : Nat} (c d : α) (h : 0 < n) :
    List.getD (List.replicate n c) 0 d = c := by
  cases n with
  | zero => omega
  | succ n => rfl

theorem bitmap_test_set_self (b : bitmap_t) {i : Nat} (h : i < b.length) :
    bitmap_test (bitmap_set b i) i = true :=
  getD_set_self b true false h

theorem bitmap_test_set_ne (b : bitmap_t) {i j : Nat} (h : i ≠ j) :
    bitmap_test (bitmap_set b i) j = bitmap_test b j :=
  getD_set_ne b true false h

theorem bitmap_test_reset_ne (b : bitmap_t) {i j : Nat} (h : i ≠ j) :
    bitmap_test (bitmap_reset b i) j = bitmap_test b j :=
  getD_set_ne b false false h

theorem length_bitmap_set (b : bitmap_t) (i : Nat) :
    (bitmap_set b i).length = b.length := List.length_set b i true

theorem create_bmp_zero :
    List.getD block_store_create.bmp 0 [] = bitmap_set (bitmap_create 2048) 0 := by
  simp only [block_store_create]
  rw [getD_replicate_zero _ _ (by omega),
    getD_set_self _ _ _ (by rw [List.length_replicate]; omega)]

theorem create_wf : block_store_wf block_store_create := by
  constructor
  · simp only [block_store_create]
    rw [List.length_set, List.length_replicate]
  · intro b hb
    simp only [block_store_create] at hb
    rcases List.mem_or_eq_of_mem_set hb with h | h
    · rw [List.eq_of_mem_replicate h]
      simp only [bitmap_create, List.length_replicate]
    · subst h
      rw [getD_replicate_zero _ _ (by omega), length_bitmap_set]
      simp only [bitmap_create, List.length_replicate]

theorem create_bit0 : bitmap_test (List.getD block_store_create.bmp 0 []) 0 = true := by
  rw [create_bmp_zero]
  exact bitmap_test_set_self _ (by simp only [bitmap_create, List.length_replicate]; omega)

theorem wf_bmp_length (bs : block_store_t) (hwf : block_store_wf bs) {k : Nat}
    (hk : k < 256) :
    (List.getD bs.bmp k []).length = 2048 := by
  have h0 : k < bs.bmp.length := by rw [hwf.1]; omega
  have hmem : List.getD bs.bmp k [] ∈ bs.bmp := by
    rw [List.getD_eq_getElem?_getD, List.getElem?_eq_getElem h0]
    simp only [Option.getD_some]
    exact List.getElem_mem h0
  exact hwf.2 _ hmem

theorem ffzAux_spec (b : List Bool) (k : Nat) :
    (∃ m, m < b.length ∧ ffzAux b k = k + m ∧ List.getD b m false = false ∧
      ∀ j, j < m → List.getD b j false = true) ∨
    (ffzAux b k = SIZE_MAX ∧ ∀ j, j < b.length → List.getD b j false = true) := by
  induction b generalizing k with
  | nil => right; exact ⟨rfl, by simp⟩
  | cons x rest ih =>
    cases hx : x with
    | false =>
      left
      exact ⟨0, by simp, by simp [ffzAux, hx], by simp, by omega⟩
    | true =>
      rcases ih (k + 1) with ⟨m, hm, heq, hf, hall⟩ | ⟨heq, hall⟩
      · left
        refine ⟨m + 1, by simpa using hm, ?_, by simpa using hf, ?_⟩
        · simp only [ffzAux, hx, if_true, heq]; omega
        · intro j hj
          cases j with
          | zero => simp [hx]
          | succ j => simpa using hall j (by omega)
      · right
        refine ⟨by simp [ffzAux, hx, heq], ?_⟩
        intro j hj
        cases j with
        | zero => simp [hx]
        | succ j => simpa using hall j (by simpa using hj)

theorem bitmap_ffz_spec (b : bitmap_t) :
    (∃ m, m < b.length ∧ bitmap_ffz b = m ∧ bitmap_test b m = false ∧
      ∀ j, j < m → bitmap_test b j = true) ∨
    (bitmap_ffz b = SIZE_MAX ∧ ∀ j, j < b.length → bitmap_test b j = true) := by
  have h := ffzAux_spec b 0
  simpa [bitmap_ffz, bitmap_test] using h

theorem countP_update_one {l : List Nat} {p q : Nat → Bool} {i : Nat}
    (hnd : l.Nodup) (hi : i ∈ l) (hp : p i = false) (hq : q i = true)
    (hagree : ∀ j ∈ l, j ≠ i → q j = p j) :
    List.countP q l = List.countP p l + 1 := by
  induction l with
  | nil => simp at hi
  | cons a t ih =>
    rcases List.mem_cons.mp hi with rfl | hmem
    · have hnotmem : i ∉ t := (List.nodup_cons.mp hnd).1
      have ht : List.countP q t = List.countP p t := by
        apply List.countP_congr
        intro x hx
        have hxne : x ≠ i := fun h => hnotmem (h ▸ hx)
        rw [hagree x (List.mem_cons_of_mem _ hx) hxne]
      simp [List.countP_cons, hp, hq, ht]
    · have ha : a ≠ i := by
        rintro rfl
        exact (List.nodup_cons.mp hnd).1 hmem
      have hrec := ih (List.nodup_cons.mp hnd).2 hmem
        (fun j hj hne => hagree j (List.mem_cons_of_mem _ hj) hne)
      have haq : q a = p a := hagree a (List.mem_cons_self a t) ha
      cases hpa : p a <;> simp [List.countP_cons, haq, hpa, hrec]

/-! ### Claim theorems -/

/-- C1: on a non-null device, for every block id < 256 and every 256-byte
buffer X, write(device, id, X) returns 256 and a subsequent read of block id
into a non-null buffer returns 256 with the buffer equal to X byte-for-byte,
regardless of whether id's occupancy bit is set. -/
theorem C1_write_read_roundtrip (bs : block_store_t) (id : Nat) (X Y : Buffer)
    (hwf : block_store_wf bs) (hid : id < 256) (hX : X.length = 2048) :
    (block_store_write (some bs) id (some X)).1 = 256 ∧
    block_store_read (block_store_write (some bs) id (some X)).2 id (some Y) =
      some (256, some X) := by
  have hnot : ¬ 256 ≤ id := by omega
  have htake : bitmap_import 2048 X = X := List.take_of_length_le (by omega)
  have hw : block_store_write (some bs) id (some X) =
      (256, some ⟨List.set bs.bmp id X⟩) := by
    simp only [block_store_write, if_neg hnot, htake]
  refine ⟨by rw [hw], ?_⟩
  rw [hw]
  have hlt : id < bs.bmp.length := by rw [hwf.1]; omega
  simp only [block_store_read, List.getElem?_set_self hlt, bitmap_export]

theorem C1_write_read_roundtrip_witness :
    (block_store_write (some block_store_create) 3 (some (List.replicate 2048 true))).1
      = 256 ∧
    block_store_read
      (block_store_write (some block_store_create) 3 (some (List.replicate 2048 true))).2
      3 (some (List.replicate 2048 false)) =
      some (256, some (List.replicate 2048 true)) :=
  C1_write_read_roundtrip block_store_create 3 (List.replicate 2048 true)
    (List.replicate 2048 false) create_wf (by omega) (by rw [List.length_replicate])

/-- C7: request(device, id) returns true (and sets bit id) exactly when the
device is present, 0 < id < 256 and bit id is clear; in every other case
(null device included) it returns false and leaves the device unchanged. -/
theorem C7_request_spec (bs : block_store_t) (id : Nat) (hwf : block_store_wf bs) :
    block_store_request none id = (false, none) ∧
    ((block_store_request (some bs) id).1 = true ↔
      0 < id ∧ id < 256 ∧ bitmap_test (List.getD bs.bmp 0 []) id = false) ∧
    ((block_store_request (some bs) id).1 = true →
      bitmap_test (List.getD (((block_store_request (some bs) id).2).getD ⟨[]⟩).bmp 0 []) id
        = true) ∧
    ((block_store_request (some bs) id).1 = false →
      (block_store_request (some bs) id).2 = some bs) := by
  by_cases hc : 0 < id ∧ id < 256 ∧ bitmap_test (List.getD bs.bmp 0 []) id = false
  · have hr : block_store_request (some bs) id =
        (true, some ⟨List.set bs.bmp 0 (bitmap_set (List.getD bs.bmp 0 []) id)⟩) := by
      simp only [block_store_request, if_pos hc]
    refine ⟨rfl, ?_, ?_, ?_⟩
    · rw [hr]; exact ⟨fun _ => hc, fun _ => rfl⟩
    · intro _
      rw [hr]
      simp only [Option.getD_some]
      rw [getD_set_self _ _ _ (by rw [hwf.1]; omega)]
      refine bitmap_test_set_self _ ?_
      have h2 := hc.2.1
      rw [wf_bmp_length bs hwf (by omega : (0:Nat) < 256)]
      omega
    · intro h; rw [hr] at h; exact absurd h (by simp)
  · have hr : block_store_request (some bs) id = (false, some bs) := by
      simp only [block_store_request, if_neg hc]
    refine ⟨rfl, ?_, ?_, ?_⟩
    · rw [hr]; exact ⟨fun h => by simp at h, fun hp => absurd hp hc⟩
    · intro h; rw [hr] at h; exact absurd h (by simp)
    · intro _; rw [hr]

theorem C7_request_spec_witness :
    (block_store_request (some block_store_create) 100).1 = true ∧
    ((block_store_request (some block_store_create) 100).2.getD ⟨[]⟩ ≠
      block_store_create →
      (block_store_request (some block_store_create) 100).1 = true) := by
  have h := C7_request_spec block_store_create 100 create_wf
  have h1 : (block_store_request (some block_store_create) 100).1 = true := by
    refine h.2.1.mpr ⟨by omega, by omega, ?_⟩
    rw [create_bmp_zero]
    rw [bitmap_test_set_ne _ (by omega : (0:Nat) ≠ 100)]
    simp only [bitmap_test, bitmap_create]
    rw [List.getD_eq_getElem?_getD, List.getElem?_replicate]
    simp
  exact ⟨h1, fun _ => h1⟩

/-- C8: every operation invoked on a null device returns its documented
failure sentinel and mutates nothing: allocate, used_count and free_count
return SIZE_MAX, request returns false, release is a no-op, and read, write
and serialize return 0; the device stays absent throughout. -/
theorem C8_null_device (id : Nat) (buf : Option Buffer) (fn : Option Unit) :
    block_store_allocate none = (SIZE_MAX, none) ∧
    block_store_get_used_blocks none = SIZE_MAX ∧
    block_store_get_free_blocks none = SIZE_MAX ∧
    block_store_request none id = (false, none) ∧
    block_store_release none id = none ∧
    block_store_read none id buf = some (0, buf) ∧
    block_store_write none id buf = (0, none) ∧
    (block_store_serialize none fn).1 = 0 := by
  refine ⟨rfl, rfl, ?_, rfl, rfl, rfl, rfl, rfl⟩
  simp [block_store_get_free_blocks, block_store_get_used_blocks]

theorem C8_null_device_witness :
    block_store_allocate none = (SIZE_MAX, none) ∧
    block_store_get_used_blocks none = SIZE_MAX ∧
    block_store_get_free_blocks none = SIZE_MAX ∧
    block_store_request none 7 = (false, none) ∧
    block_store_release none 7 = none ∧
    block_store_read none 7 (some []) = some (0, some []) ∧
    block_store_write none 7 (some []) = (0, none) ∧
    (block_store_serialize none (some ())).1 = 0 :=
  C8_null_device 7 (some []) (some ())

/-- C9: read returns 0 exactly when the device or the buffer is null;
otherwise it copies exactly 256 bytes (2048 bits) of slot id and returns
256.  It performs no bounds check on id: the slot-array access is
well-defined only for id < 256, and for id ≥ 256 the access is out of
bounds (modelled by the `none` result marking the undefined behaviour). -/
theorem C9_read_spec (bs : block_store_t) (id : Nat) (Y : Buffer)
    (hwf : block_store_wf bs) :
    block_store_read none id (some Y) = some (0, some Y) ∧
    block_store_read (some bs) id none = some (0, none) ∧
    (id < 256 →
      block_store_read (some bs) id (some Y) =
        some (256, some (List.getD bs.bmp id [])) ∧
      (List.getD bs.bmp id []).length = 2048) ∧
    (256 ≤ id → block_store_read (some bs) id (some Y) = none) := by
  refine ⟨rfl, rfl, ?_, ?_⟩
  · intro h
    have hlt : id < bs.bmp.length := by rw [hwf.1]; omega
    refine ⟨?_, wf_bmp_length bs hwf h⟩
    simp only [block_store_read, List.getElem?_eq_getElem hlt, bitmap_export]
    rw [List.getD_eq_getElem?_getD, List.getElem?_eq_getElem hlt]
    rfl
  · intro h
    have hnone : bs.bmp[id]? = none := by
      rw [List.getElem?_eq_none]
      rw [hwf.1]; omega
    simp only [block_store_read, hnone]

theorem C9_read_spec_witness :
    block_store_read none 2 (some []) = some (0, some []) ∧
    block_store_read (some block_store_create) 300 (some []) = none := by
  have h := C9_read_spec block_store_create 300 [] create_wf
  exact ⟨h.1, h.2.2.2 (by omega)⟩

/-- C2 counterexample: the claim fails at block id 0.  Writing an all-ones
buffer to block 0 on a fresh device sets occupancy bit 5 (and every other
bit), because block 0's bytes are the occupancy bitmap itself. -/
theorem C2_counterexample :
    bitmap_test (List.getD block_store_create.bmp 0 []) 5 = false ∧
    bitmap_test (List.getD
      (((block_store_write (some block_store_create) 0
        (some (List.replicate 2048 true))).2).getD ⟨[]⟩).bmp 0 []) 5 = true := by
  constructor
  · rw [create_bmp_zero, bitmap_test_set_ne _ (by omega : (0:Nat) ≠ 5)]
    simp only [bitmap_test, bitmap_create]
    rw [List.getD_eq_getElem?_getD, List.getElem?_replicate]
    simp
  · decide

/-- C2 (amended): writing to a block id in [1, 256) leaves every occupancy
bit unchanged, and release leaves the content of every slot other than
slot 0 unchanged.  (Slot 0 is excluded: its bytes are the occupancy bitmap,
so a write to block 0 rewrites the bitmap and a successful release rewrites
slot 0's content.) -/
theorem C2_frame (bs : block_store_t) (id rid k : Nat) (X : Buffer)
    (hid : 1 ≤ id) (hk : 1 ≤ k) :
    (∀ j, bitmap_test (List.getD
        (((block_store_write (some bs) id (some X)).2).getD ⟨[]⟩).bmp 0 []) j =
      bitmap_test (List.getD bs.bmp 0 []) j) ∧
    List.getD ((block_store_release (some bs) rid).getD ⟨[]⟩).bmp k [] =
      List.getD bs.bmp k [] := by
  constructor
  · intro j
    by_cases hb : 256 ≤ id
    · simp only [block_store_write, if_pos hb, Option.getD_some]
    · simp only [block_store_write, if_neg hb, Option.getD_some]
      rw [getD_set_ne _ _ _ (by omega : id ≠ 0)]
  · by_cases hc : 0 < rid ∧ rid < 256 ∧ bitmap_test (List.getD bs.bmp 0 []) rid = true
    · simp only [block_store_release, if_pos hc, Option.getD_some]
      rw [getD_set_ne _ _ _ (by omega : (0:Nat) ≠ k)]
    · simp only [block_store_release, if_neg hc, Option.getD_some]

theorem C2_frame_witness :
    bitmap_test (List.getD
      (((block_store_write (some block_store_create) 5
        (some (List.replicate 2048 true))).2).getD ⟨[]⟩).bmp 0 []) 9 =
      bitmap_test (List.getD block_store_create.bmp 0 []) 9 ∧
    List.getD ((block_store_release (some block_store_create) 3).getD ⟨[]⟩).bmp 7 [] =
      List.getD block_store_create.bmp 7 [] := by
  have h := C2_frame block_store_create 5 3 7 (List.replicate 2048 true)
    (by omega) (by omega)
  exact ⟨h.1 9, h.2⟩

/-- C5: evaluation of the code at the failing input.  On a device fresh from
create, the first call to allocate returns id 1, because create leaves bit 0
set and allocate returns the first-fit index itself; the repository's own
tests (`allocate_first`, `over_allocate` in tests.cpp) assert the first
allocation returns 0 and successive ones 0..254. -/
theorem C5_first_allocate_returns_one :
    (block_store_allocate (some block_store_create)).1 = 1 := by decide

/-- A device whose occupancy bitmap has bits 0..255 all set — the state
reached by 255 successful requests (or allocations) on a fresh device. -/
def fullDev : block_store_t :=
  ⟨List.set (List.replicate 256 (bitmap_create 2048)) 0
    (List.replicate 256 true ++ List.replicate 1792 false)⟩

set_option maxRecDepth 10000 in
/-- C6 counterexample: with all 255 usable bits set the count equals 255 —
which equals the usable block count — yet used_count returns 255, not the
SIZE_MAX failure sentinel the claim requires in that case. -/
theorem C6_counterexample :
    List.countP (fun i => bitmap_test (List.getD fullDev.bmp 0 []) i)
      (List.range' 1 255) = 255 ∧
    block_store_get_used_blocks (some fullDev) = 255 ∧
    (255 : Nat) ≠ SIZE_MAX := by
  refine ⟨by decide, by decide, by rw [SIZE_MAX_eq]; omega⟩

/-- C6 (amended): used_count returns the number of set occupancy bits among
ids [1, 256), and returns SIZE_MAX exactly when the device is absent.  The
internal overflow check compares the count against 256 (the raw slot
count), which a count over the 255 usable ids can never reach, so no
non-null device makes used_count fail. -/
theorem C6_used_blocks_spec (obs : Option block_store_t) :
    (block_store_get_used_blocks obs = SIZE_MAX ↔ obs = none) ∧
    ∀ bs, obs = some bs →
      block_store_get_used_blocks obs =
        (List.filter (fun i => decide (0 < i) && bitmap_test (List.getD bs.bmp 0 []) i)
          (List.range 256)).length := by
  cases obs with
  | none => exact ⟨by simp [block_store_get_used_blocks], fun bs h => Option.noConfusion h⟩
  | some bs =>
    have hcount : List.countP (fun i => bitmap_test (List.getD bs.bmp 0 []) i)
        (List.range' 1 255) ≤ 255 := by
      have h1 := List.countP_le_length
        (p := fun i => bitmap_test (List.getD bs.bmp 0 []) i) (l := List.range' 1 255)
      simpa using h1
    have hub : block_store_get_used_blocks (some bs) =
        List.countP (fun i => bitmap_test (List.getD bs.bmp 0 []) i) (List.range' 1 255) := by
      simp only [block_store_get_used_blocks]
      rw [if_neg (by omega)]
    constructor
    · constructor
      · intro h
        rw [hub] at h
        rw [SIZE_MAX_eq] at h
        omega
      · intro h; exact Option.noConfusion h
    · intro bs2 heq
      have hbs : bs2 = bs := by
        injection heq with h
        exact h.symm
      subst hbs
      have hrange : List.range 256 = 0 :: List.range' 1 255 := by
        rw [List.range_eq_range']
        rfl
      have hqp : ∀ x ∈ List.range' 1 255,
          ((fun i => bitmap_test (List.getD bs2.bmp 0 []) i) x = true ↔
            (fun i => decide (0 < i) && bitmap_test (List.getD bs2.bmp 0 []) i) x = true) := by
        intro x hx
        have hx1 : 1 ≤ x := by
          have := List.mem_range'_1.mp hx
          omega
        show bitmap_test (List.getD bs2.bmp 0 []) x = true ↔
          (decide (0 < x) && bitmap_test (List.getD bs2.bmp 0 []) x) = true
        rw [decide_eq_true (by omega : 0 < x), Bool.true_and]
      calc block_store_get_used_blocks (some bs2)
          = List.countP (fun i => bitmap_test (List.getD bs2.bmp 0 []) i)
              (List.range' 1 255) := hub
        _ = List.countP (fun i => decide (0 < i) && bitmap_test (List.getD bs2.bmp 0 []) i)
              (List.range' 1 255) := List.countP_congr hqp
        _ = (List.filter (fun i => decide (0 < i) && bitmap_test (List.getD bs2.bmp 0 []) i)
              (List.range' 1 255)).length := List.countP_eq_length_filter _ _
        _ = (List.filter (fun i => decide (0 < i) && bitmap_test (List.getD bs2.bmp 0 []) i)
              (List.range 256)).length := by
            rw [hrange]
            simp

theorem C6_used_blocks_spec_witness :
    block_store_get_used_blocks (some block_store_create) ≠ SIZE_MAX := by
  intro h
  exact Option.noConfusion ((C6_used_blocks_spec (some block_store_create)).1.mp h)

set_option maxRecDepth 10000 in
/-- C3 counterexample: a write — one of the operations the claim ranges
over — of an all-zero buffer to block 0 clears occupancy bit 0 on a device
fresh from create, because block 0's bytes are the occupancy bitmap. -/
theorem C3_counterexample :
    bitmap_test (List.getD
      ((runOps [Op.write 0 (some (List.replicate 2048 false))]).getD ⟨[]⟩).bmp 0 []) 0
      = false := by decide

theorem applyOp_some (bs : block_store_t) (op : Op) :
    ∃ bs2, applyOp (some bs) op = some bs2 := by
  cases op with
  | alloc =>
    simp only [applyOp, block_store_allocate]
    by_cases hc : bitmap_ffz (List.getD bs.bmp 0 []) = SIZE_MAX ∨
        256 ≤ bitmap_ffz (List.getD bs.bmp 0 [])
    · exact ⟨bs, by rw [if_pos hc]⟩
    · exact ⟨_, by rw [if_neg hc]⟩
  | request id =>
    simp only [applyOp, block_store_request]
    by_cases hc : 0 < id ∧ id < 256 ∧ bitmap_test (List.getD bs.bmp 0 []) id = false
    · exact ⟨_, by rw [if_pos hc]⟩
    · exact ⟨bs, by rw [if_neg hc]⟩
  | release id =>
    simp only [applyOp, block_store_release]
    by_cases hc : 0 < id ∧ id < 256 ∧ bitmap_test (List.getD bs.bmp 0 []) id = true
    · exact ⟨_, by rw [if_pos hc]⟩
    · exact ⟨bs, by rw [if_neg hc]⟩
  | write id buf =>
    cases buf with
    | none => exact ⟨bs, rfl⟩
    | some X =>
      simp only [applyOp, block_store_write]
      by_cases hb : 256 ≤ id
      · exact ⟨bs, by rw [if_pos hb]⟩
      · exact ⟨_, by rw [if_neg hb]⟩
  | read id buf => exact ⟨bs, rfl⟩

theorem applyOp_preserves_bit0 (op : Op) (hop : writesToBlock0 op = false)
    (bs bs2 : block_store_t) (h0 : bitmap_test (List.getD bs.bmp 0 []) 0 = true)
    (happ : applyOp (some bs) op = some bs2) :
    bitmap_test (List.getD bs2.bmp 0 []) 0 = true := by
  have hne : bs.bmp ≠ [] := by
    intro h
    rw [h] at h0
    simp [bitmap_test] at h0
  have hlen : 0 < bs.bmp.length := by
    cases hh : bs.bmp with
    | nil => exact absurd hh hne
    | cons a t => simp
  cases op with
  | alloc =>
    simp only [applyOp, block_store_allocate] at happ
    by_cases hc : bitmap_ffz (List.getD bs.bmp 0 []) = SIZE_MAX ∨
        256 ≤ bitmap_ffz (List.getD bs.bmp 0 [])
    · rw [if_pos hc] at happ
      injection happ with h
      rw [← h]; exact h0
    · rw [if_neg hc] at happ
      injection happ with h
      rw [← h]
      rw [getD_set_self _ _ _ hlen]
      rcases bitmap_ffz_spec (List.getD bs.bmp 0 []) with ⟨m, hm, heq, hf, hall⟩ | ⟨heq, hall⟩
      · rw [heq]
        have hm0 : m ≠ 0 := by
          intro h0m
          rw [h0m] at hf
          rw [hf] at h0
          exact Bool.noConfusion h0
        rw [bitmap_test_set_ne _ hm0]
        exact h0
      · exact absurd (Or.inl heq) hc
  | request id =>
    simp only [applyOp, block_store_request] at happ
    by_cases hc : 0 < id ∧ id < 256 ∧ bitmap_test (List.getD bs.bmp 0 []) id = false
    · rw [if_pos hc] at happ
      injection happ with h
      rw [← h]
      rw [getD_set_self _ _ _ hlen]
      rw [bitmap_test_set_ne _ (by have := hc.1; omega : id ≠ 0)]
      exact h0
    · rw [if_neg hc] at happ
      injection happ with h
      rw [← h]; exact h0
  | release id =>
    simp only [applyOp, block_store_release] at happ
    by_cases hc : 0 < id ∧ id < 256 ∧ bitmap_test (List.getD bs.bmp 0 []) id = true
    · rw [if_pos hc] at happ
      injection happ with h
      rw [← h]
      rw [getD_set_self _ _ _ hlen]
      rw [bitmap_test_reset_ne _ (by have := hc.1; omega : id ≠ 0)]
      exact h0
    · rw [if_neg hc] at happ
      injection happ with h
      rw [← h]; exact h0
  | write id buf =>
    have hid : id ≠ 0 := by
      cases id with
      | zero => simp [writesToBlock0] at hop
      | succ n => exact Nat.succ_ne_zero n
    cases buf with
    | none =>
      simp only [applyOp, block_store_write] at happ
      injection happ with h; rw [← h]; exact h0
    | some X =>
      simp only [applyOp, block_store_write] at happ
      by_cases hb : 256 ≤ id
      · rw [if_pos hb] at happ
        injection happ with h
        rw [← h]; exact h0
      · rw [if_neg hb] at happ
        injection happ with h
        rw [← h]
        rw [getD_set_ne _ _ _ hid]
        exact h0
  | read id buf =>
    simp only [applyOp] at happ
    injection happ with h
    rw [← h]; exact h0

theorem foldl_applyOp_bit0 (ops : List Op) :
    (∀ op ∈ ops, writesToBlock0 op = false) →
    ∀ bs : block_store_t, bitmap_test (List.getD bs.bmp 0 []) 0 = true →
    ∀ bs2 : block_store_t, List.foldl applyOp (some bs) ops = some bs2 →
    bitmap_test (List.getD bs2.bmp 0 []) 0 = true := by
  induction ops with
  | nil =>
    intro _ bs h0 bs2 hrun
    injection hrun with h
    rw [← h]; exact h0
  | cons op rest ih =>
    intro hops bs h0 bs2 hrun
    obtain ⟨bs1, hbs1⟩ := applyOp_some bs op
    have h1 := applyOp_preserves_bit0 op (hops op (List.mem_cons_self _ _)) bs bs1 h0 hbs1
    have hrun2 : List.foldl applyOp (some bs1) rest = some bs2 := by
      rw [List.foldl_cons, hbs1] at hrun
      exact hrun
    exact ih (fun o ho => hops o (List.mem_cons_of_mem _ ho)) bs1 h1 bs2 hrun2

theorem foldl_applyOp_some (l : List Op) (bs : block_store_t) :
    ∃ bs2, List.foldl applyOp (some bs) l = some bs2 := by
  induction l generalizing bs with
  | nil => exact ⟨bs, rfl⟩
  | cons op rest ih =>
    obtain ⟨bs1, h1⟩ := applyOp_some bs op
    obtain ⟨bs2, h2⟩ := ih bs1
    exact ⟨bs2, by rw [List.foldl_cons, h1]; exact h2⟩

/-- C3 (amended): occupancy bit 0 is set on a fresh device and in every
state reachable from create by any sequence of allocate, request, release,
read, and write operations that never writes to block 0.  (Restricting the
writes is forced: block 0's bytes are the occupancy bitmap, so a write to
block 0 replaces the bitmap wholesale and can clear bit 0 — see the
counterexample.) -/
theorem C3_bit0_invariant (ops : List Op)
    (hops : ∀ op ∈ ops, writesToBlock0 op = false) :
    bitmap_test (List.getD ((runOps ops).getD ⟨[]⟩).bmp 0 []) 0 = true := by
  obtain ⟨bs2, h2⟩ := foldl_applyOp_some ops block_store_create
  rw [runOps, h2]
  simp only [Option.getD_some]
  exact foldl_applyOp_bit0 ops hops block_store_create create_bit0 bs2 h2

theorem C3_bit0_invariant_witness :
    bitmap_test (List.getD
      ((runOps [Op.alloc, Op.request 5, Op.release 5, Op.read 3 none,
        Op.write 7 (some (List.replicate 2048 true))]).getD ⟨[]⟩).bmp 0 []) 0 = true :=
  C3_bit0_invariant _ (by decide)

theorem deserialize_loop (chunks : List Buffer) :
    ∀ (n s : Nat) (d : block_store_t), s + n ≤ 256 → d.bmp.length = 256 →
    ∃ d2 : block_store_t,
      List.foldl (fun obs i => deserialize_step obs chunks i) (some d) (List.range' s n) =
        some d2 ∧
      d2.bmp.length = 256 ∧
      ∀ j : Nat, d2.bmp[j]? =
        if s ≤ j ∧ j < s + n then some (bitmap_import 2048 (List.getD chunks j []))
        else d.bmp[j]? := by
  intro n
  induction n with
  | zero =>
    intro s d hs hd
    refine ⟨d, rfl, hd, ?_⟩
    intro j
    rw [if_neg (by omega)]
  | succ n ih =>
    intro s d hs hd
    have hslt : ¬ 256 ≤ s := by omega
    have hstep : deserialize_step (some d) chunks s =
        some ⟨List.set d.bmp s (bitmap_import 2048 (List.getD chunks s []))⟩ := by
      simp only [deserialize_step, block_store_write, if_neg hslt]
      rw [if_pos trivial]
    obtain ⟨d2, hfold, hlen2, hget⟩ := ih (s + 1)
      ⟨List.set d.bmp s (bitmap_import 2048 (List.getD chunks s []))⟩
      (by omega) (by simp only [List.length_set]; exact hd)
    refine ⟨d2, ?_, hlen2, ?_⟩
    · rw [List.range'_succ, List.foldl_cons, hstep]
      exact hfold
    · intro j
      rw [hget j]
      by_cases h1 : s + 1 ≤ j ∧ j < s + 1 + n
      · rw [if_pos h1, if_pos (by omega)]
      · rw [if_neg h1]
        by_cases h2 : j = s
        · subst h2
          rw [List.getElem?_set_self (by omega : j < d.bmp.length)]
          rw [if_pos (by omega)]
        · rw [List.getElem?_set_ne (fun hh => h2 hh.symm)]
          rw [if_neg (by omega)]

/-- C4 (amended): a successful deserialize of a serialized device
reproduces the serialized device exactly: every slot's content is restored,
and — because slot 0's bytes are the occupancy bitmap — the occupancy
bitmap equals the serialized device's bitmap, not a fresh device's
only-bit-0-set state. -/
theorem C4_roundtrip (bs : block_store_t) (hwf : block_store_wf bs) :
    block_store_deserialize (block_store_serialize (some bs) (some ())).2 = some bs := by
  have hser : (block_store_serialize (some bs) (some ())).2 =
      some (List.map (fun i => bitmap_export (List.getD bs.bmp i [])) (List.range 256)) := rfl
  rw [hser]
  have hchunk_get : ∀ j, j < 256 →
      List.getD (List.map (fun i => bitmap_export (List.getD bs.bmp i []))
        (List.range 256)) j [] = List.getD bs.bmp j [] := by
    intro j hj
    rw [List.getD_eq_getElem?_getD, List.getElem?_map, List.getElem?_range hj]
    rfl
  obtain ⟨d2, hfold, hlen2, hget⟩ := deserialize_loop
    (List.map (fun i => bitmap_export (List.getD bs.bmp i [])) (List.range 256))
    256 0 block_store_create (by omega) create_wf.1
  have hdes : ∀ C : List Buffer,
      block_store_deserialize (some C) =
        List.foldl (fun obs i => deserialize_step obs C i) (some block_store_create)
          (List.range' 0 256) := by
    intro C
    simp only [block_store_deserialize, List.range_eq_range']
  rw [hdes _, hfold]
  have hbmp : d2.bmp = bs.bmp := by
    apply List.ext_getElem?
    intro j
    rw [hget j]
    by_cases hj : j < 256
    · rw [if_pos (by omega)]
      rw [hchunk_get j hj]
      have hjlen : j < bs.bmp.length := by rw [hwf.1]; omega
      have hlen := wf_bmp_length bs hwf hj
      have htake : bitmap_import 2048 (List.getD bs.bmp j []) = List.getD bs.bmp j [] :=
        List.take_of_length_le (by omega)
      rw [htake, List.getElem?_eq_getElem hjlen]
      rw [List.getD_eq_getElem?_getD, List.getElem?_eq_getElem hjlen]
      rfl
    · rw [if_neg (by omega)]
      rw [List.getElem?_eq_none (by rw [create_wf.1]; omega),
        List.getElem?_eq_none (by rw [hwf.1]; omega)]
  have hd2 : d2 = bs := by
    cases d2 with
    | mk l2 =>
      cases bs with
      | mk l =>
        have hll : l2 = l := hbmp
        rw [hll]
  rw [hd2]

theorem C4_roundtrip_witness :
    block_store_deserialize (block_store_serialize (some block_store_create) (some ())).2 =
      some block_store_create :=
  C4_roundtrip block_store_create create_wf

/-- The device obtained by requesting block 10 on a fresh device. -/
def dev10 : block_store_t :=
  ((block_store_request (some block_store_create) 10).2).getD ⟨[]⟩

set_option maxRecDepth 10000 in
/-- C4 counterexample: serialize a device that had block 10 requested, then
deserialize: occupancy bit 10 of the reconstructed device is set, whereas
the claim says the reconstructed bitmap equals a fresh device's state, in
which bit 10 is clear. -/
theorem C4_counterexample :
    bitmap_test (List.getD
      ((block_store_deserialize (block_store_serialize (some dev10) (some ())).2).getD
        ⟨[]⟩).bmp 0 []) 10 = true ∧
    bitmap_test (List.getD block_store_create.bmp 0 []) 10 = false := by
  constructor
  · decide
  · rw [create_bmp_zero, bitmap_test_set_ne _ (by omega : (0:Nat) ≠ 10)]
    simp only [bitmap_test, bitmap_create]
    rw [List.getD_eq_getElem?_getD, List.getElem?_replicate]
    simp

set_option maxRecDepth 10000 in
/-- C10 counterexample: a successful allocate does change a block slot's
content — slot 0's bytes are the occupancy bitmap, so setting the newly
allocated bit rewrites slot 0's content. -/
theorem C10_counterexample :
    (block_store_allocate (some block_store_create)).1 ≠ SIZE_MAX ∧
    List.getD (((block_store_allocate (some block_store_create)).2).getD ⟨[]⟩).bmp 0 [] ≠
      List.getD block_store_create.bmp 0 [] := by
  constructor
  · have h1 : (block_store_allocate (some block_store_create)).1 = 1 := by decide
    rw [h1, SIZE_MAX_eq]
    omega
  · decide

/-- C10 (amended): when allocate succeeds on a well-formed device whose
reserved bit 0 is set (as in every reachable state), the returned id's
occupancy bit was clear before the call and is set after it, every other
occupancy bit is unchanged, the content of every slot other than slot 0 is
unchanged (slot 0 is the bitmap itself, so its bytes do change — see the
counterexample), and used_count increases by exactly one. -/
theorem C10_allocate_spec (bs : block_store_t) (hwf : block_store_wf bs)
    (h0 : bitmap_test (List.getD bs.bmp 0 []) 0 = true)
    (hsucc : (block_store_allocate (some bs)).1 ≠ SIZE_MAX) :
    bitmap_test (List.getD bs.bmp 0 []) (block_store_allocate (some bs)).1 = false ∧
    bitmap_test
      (List.getD (((block_store_allocate (some bs)).2).getD ⟨[]⟩).bmp 0 [])
      (block_store_allocate (some bs)).1 = true ∧
    (∀ j, j ≠ (block_store_allocate (some bs)).1 →
      bitmap_test (List.getD (((block_store_allocate (some bs)).2).getD ⟨[]⟩).bmp 0 []) j =
        bitmap_test (List.getD bs.bmp 0 []) j) ∧
    (∀ k, 1 ≤ k →
      List.getD (((block_store_allocate (some bs)).2).getD ⟨[]⟩).bmp k [] =
        List.getD bs.bmp k []) ∧
    block_store_get_used_blocks (block_store_allocate (some bs)).2 =
      block_store_get_used_blocks (some bs) + 1 := by
  have hblen : (List.getD bs.bmp 0 []).length = 2048 :=
    wf_bmp_length bs hwf (by omega)
  have hlen : 0 < bs.bmp.length := by rw [hwf.1]; omega
  by_cases hc : bitmap_ffz (List.getD bs.bmp 0 []) = SIZE_MAX ∨
      256 ≤ bitmap_ffz (List.getD bs.bmp 0 [])
  · exfalso
    apply hsucc
    simp only [block_store_allocate, if_pos hc]
  · rcases bitmap_ffz_spec (List.getD bs.bmp 0 []) with ⟨m, hm, heq, hf, hall⟩ | ⟨heq, hall⟩
    swap
    · exact absurd (Or.inl heq) hc
    have hm256 : m < 256 := by
      by_contra hge
      exact hc (Or.inr (by rw [heq]; omega))
    have hm0 : m ≠ 0 := by
      intro h
      rw [h] at hf
      rw [hf] at h0
      exact Bool.noConfusion h0
    have hc2 : ¬ (m = SIZE_MAX ∨ 256 ≤ m) := by
      rw [SIZE_MAX_eq]
      omega
    have halloc : block_store_allocate (some bs) =
        (m, some ⟨List.set bs.bmp 0 (bitmap_set (List.getD bs.bmp 0 []) m)⟩) := by
      simp only [block_store_allocate, heq, if_neg hc2]
    rw [halloc]
    simp only [Option.getD_some]
    rw [getD_set_self _ _ _ hlen]
    refine ⟨hf, ?_, ?_, ?_, ?_⟩
    · exact bitmap_test_set_self _ (by omega)
    · intro j hj
      exact bitmap_test_set_ne _ (fun h => hj h.symm)
    · intro k hk
      exact getD_set_ne _ _ _ (by omega)
    · have hmem : m ∈ List.range' 1 255 := by
        rw [List.mem_range'_1]
        omega
      have hcnt := countP_update_one (l := List.range' 1 255)
        (p := fun i => bitmap_test (List.getD bs.bmp 0 []) i)
        (q := fun i => bitmap_test (bitmap_set (List.getD bs.bmp 0 []) m) i)
        (i := m) (List.nodup_range' 1 255) hmem hf
        (bitmap_test_set_self _ (by omega))
        (fun j hj hne => bitmap_test_set_ne _ (fun h => hne h.symm))
      have hnew : List.countP
          (fun i => bitmap_test (bitmap_set (List.getD bs.bmp 0 []) m) i)
          (List.range' 1 255) ≤ 255 := by
        have := List.countP_le_length
          (p := fun i => bitmap_test (bitmap_set (List.getD bs.bmp 0 []) m) i)
          (l := List.range' 1 255)
        simpa using this
      simp only [block_store_get_used_blocks]
      rw [getD_set_self _ _ _ hlen]
      rw [hcnt]
      rw [if_neg (by omega), if_neg (by omega)]

set_option maxRecDepth 10000 in
theorem C10_allocate_spec_witness :
    bitmap_test (List.getD block_store_create.bmp 0 [])
      (block_store_allocate (some block_store_create)).1 = false ∧
    block_store_get_used_blocks (block_store_allocate (some block_store_create)).2 =
      block_store_get_used_blocks (some block_store_create) + 1 := by
  have h := C10_allocate_spec block_store_create create_wf create_bit0
    (by
      have h1 : (block_store_allocate (some block_store_create)).1 = 1 := by decide
      rw [h1, SIZE_MAX_eq]
      omega)
  exact ⟨h.1, h.2.2.2.2⟩
